import Mathlib

/-!
Shallow embedding of `auto_yolo/models/object_layer.py` (classes `ObjectLayer`,
`GridObjectLayer`, `ConvGridObjectLayer`).

Tensors are modelled elementwise over `ℝ`; batched elementwise TensorFlow
operations become plain real-valued functions.  Stochastic sampling
(`tfp.distributions.Normal(loc, scale).sample()` and the logistic noise inside
the Concrete relaxation) is modelled by reparameterization: a sample is
`loc + scale * eps` where `eps` is an explicit input, so every theorem
quantifies over the random draws.  Python `assert` statements and `raise`
become `Except String` results.  The neural sub-networks (`box_network`,
`attr_network`, `z_network`, `obj_network`, built from external `cfg.build_lateral`)
are external collaborators: their outputs enter the model as free inputs.
-/

namespace AutoYolo

/-- Embedding of `tf.clip_by_value(t, lo, hi)`: elementwise `min(max(t, lo), hi)`. -/
def clip_by_value (x lo hi : ℝ) : ℝ := min (max x lo) hi

/-- Embedding of `tf.stop_gradient`: the forward value is unchanged, only the
gradient (which is outside this value-level model) differs. -/
def stop_gradient (x : ℝ) : ℝ := x

/-- Training-wheels interpolation used throughout `object_layer.py`:
`w * tf.stop_gradient(x) + (1 - w) * x`. -/
def training_wheels_blend (w x : ℝ) : ℝ := w * stop_gradient x + (1 - w) * x

/-- Logistic sigmoid, the real-valued model of `tf.nn.sigmoid`. -/
noncomputable def sigmoid (x : ℝ) : ℝ := 1 / (1 + Real.exp (-x))

/-- Embedding of `ObjectLayer.std_nonlinearity`:
`noisy * 2 * sigmoid(clip_by_value(std_logit, -10, 10)) + (1 - noisy) * zeros_like(std_logit)`.
The coefficient `noisy` models the tensor `self._noisy`. -/
noncomputable def std_nonlinearity (noisy stdLogit : ℝ) : ℝ :=
  noisy * 2 * sigmoid (clip_by_value stdLogit (-10) 10) + (1 - noisy) * 0

/-- Embedding of `ObjectLayer.z_nonlinearity`:
`sigmoid(clip_by_value(z_logit, -10, 10))`. -/
noncomputable def z_nonlinearity (zLogit : ℝ) : ℝ :=
  sigmoid (clip_by_value zLogit (-10) 10)

/-- Modelled from the spec: `concrete_binary_pre_sigmoid_sample` is imported from
`auto_yolo.models.core`, a module of this repository that is not among the
provided sources.  Per the spec (sections 4.2 and 9) it is the Concrete /
Gumbel-sigmoid relaxation of a Bernoulli: a pure function of the log-odds, a
temperature, and a random source (here `noise`, the sampled logistic noise
`log u - log (1 - u)`), returning the pre-sigmoid relaxed sample
`(log_odds + noise) / temperature`; the presence score is obtained by applying
a sigmoid to this value afterwards. -/
noncomputable def concrete_binary_pre_sigmoid_sample (logOdds temperature noise : ℝ) : ℝ :=
  (logOdds + noise) / temperature

/-- Embedding of `tf.round`, which rounds half-integers to the nearest even
integer and every other value to the nearest integer. -/
noncomputable def tf_round (x : ℝ) : ℝ :=
  if Int.fract x = 1 / 2 then
    (if Even ⌊x⌋ then (⌊x⌋ : ℝ) else (⌊x⌋ : ℝ) + 1)
  else ((round x : ℤ) : ℝ)

/-- Configuration surface of `GridObjectLayer` (the `Param` fields and
constructor arguments that the modelled code paths read). -/
structure GridConfig where
  min_yx : ℝ
  max_yx : ℝ
  min_hw : ℝ
  max_hw : ℝ
  pixels_per_cell : ℝ × ℝ
  grid_offset : ℝ × ℝ
  anchor_box : ℝ × ℝ
  training_wheels : ℝ
  obj_temp : ℝ
  obj_concrete_temp : ℝ
  n_objects_per_cell : ℕ
  n_lookback : ℕ

/-- State stored by `GridObjectLayer.__init__`: the configuration plus the
alias `self.B = self.n_objects_per_cell`. -/
structure GridObjectLayerState where
  cfg : GridConfig
  B : ℕ

/-- Embedding of `GridObjectLayer.__init__` (object_layer.py lines 196-210).
The constructor stores `pixels_per_cell`, `grid_offset`, `B`, and builds the
scheduled prior values; it performs no validation of the box ranges
`min_yx`, `max_yx`, `min_hw`, `max_hw`, so it never fails for them. -/
def grid_object_layer_init (cfg : GridConfig) : Except String GridObjectLayerState :=
  .ok { cfg := cfg, B := cfg.n_objects_per_cell }

/-- Distributional parameters produced by the box network: `tf.split(box_params, 2)`
into a mean half and a log-std half, each later split into the four axes
`(cell_y, cell_x, height, width)`. -/
structure BoxParams where
  cell_y_mean : ℝ
  cell_x_mean : ℝ
  height_mean : ℝ
  width_mean : ℝ
  cell_y_log_std : ℝ
  cell_x_log_std : ℝ
  height_log_std : ℝ
  width_log_std : ℝ

/-- Standard-normal draws used by the reparameterized `Normal(loc, scale).sample()`
calls of `_build_box`, one per axis. -/
structure BoxSample where
  eps_y : ℝ
  eps_x : ℝ
  eps_h : ℝ
  eps_w : ℝ

/-- Per-cell outputs of `GridObjectLayer._build_box`.  `local_box` and
`normalized_box` in the source are just the concatenations
`(cell_y, cell_x, height, width)` and `(yt, xt, ys, xs)` of fields already
present here, and `ys_logit`/`xs_logit` equal `height_logit`/`width_logit`. -/
structure BoxBuilt where
  cell_y : ℝ
  cell_x : ℝ
  height : ℝ
  width : ℝ
  cell_y_logit : ℝ
  cell_x_logit : ℝ
  height_logit : ℝ
  width_logit : ℝ
  cell_y_logit_mean : ℝ
  cell_x_logit_mean : ℝ
  height_logit_mean : ℝ
  width_logit_mean : ℝ
  cell_y_logit_std : ℝ
  cell_x_logit_std : ℝ
  height_logit_std : ℝ
  width_logit_std : ℝ
  yt : ℝ
  xt : ℝ
  ys : ℝ
  xs : ℝ

/-- Value-level computation of `GridObjectLayer._build_box` (lines 252-343):
training-wheels blend of mean and std, reparameterized normal sampling,
sigmoid of the clipped logits, affine rescale into `[min, max]`, and the
normalized-to-anchor coordinate transform
`yt = (pixels_per_cell[0] * (cell_y + h) + grid_offset[0]) / anchor_box[0]`
(symmetrically for `x`), with `ys = height`, `xs = width`.  The grid indices
`(h, w)` are the `hw` argument (or the meshgrid values in the convolutional
path). -/
noncomputable def build_box_vals (cfg : GridConfig) (noisy : ℝ)
    (p : BoxParams) (e : BoxSample) (h w : ℝ) : BoxBuilt :=
  let tw := cfg.training_wheels
  let cell_y_mean := training_wheels_blend tw p.cell_y_mean
  let cell_x_mean := training_wheels_blend tw p.cell_x_mean
  let height_mean := training_wheels_blend tw p.height_mean
  let width_mean := training_wheels_blend tw p.width_mean
  let cell_y_std := training_wheels_blend tw (std_nonlinearity noisy p.cell_y_log_std)
  let cell_x_std := training_wheels_blend tw (std_nonlinearity noisy p.cell_x_log_std)
  let height_std := training_wheels_blend tw (std_nonlinearity noisy p.height_log_std)
  let width_std := training_wheels_blend tw (std_nonlinearity noisy p.width_log_std)
  let cell_y_logit := cell_y_mean + cell_y_std * e.eps_y
  let cell_x_logit := cell_x_mean + cell_x_std * e.eps_x
  let height_logit := height_mean + height_std * e.eps_h
  let width_logit := width_mean + width_std * e.eps_w
  let cell_y := (cfg.max_yx - cfg.min_yx) * sigmoid (clip_by_value cell_y_logit (-10) 10) + cfg.min_yx
  let cell_x := (cfg.max_yx - cfg.min_yx) * sigmoid (clip_by_value cell_x_logit (-10) 10) + cfg.min_yx
  let height := (cfg.max_hw - cfg.min_hw) * sigmoid (clip_by_value height_logit (-10) 10) + cfg.min_hw
  let width := (cfg.max_hw - cfg.min_hw) * sigmoid (clip_by_value width_logit (-10) 10) + cfg.min_hw
  { cell_y := cell_y
    cell_x := cell_x
    height := height
    width := width
    cell_y_logit := cell_y_logit
    cell_x_logit := cell_x_logit
    height_logit := height_logit
    width_logit := width_logit
    cell_y_logit_mean := cell_y_mean
    cell_x_logit_mean := cell_x_mean
    height_logit_mean := height_mean
    width_logit_mean := width_mean
    cell_y_logit_std := cell_y_std
    cell_x_logit_std := cell_x_std
    height_logit_std := height_std
    width_logit_std := width_std
    yt := (cfg.pixels_per_cell.1 * (cell_y + h) + cfg.grid_offset.1) / cfg.anchor_box.1
    xt := (cfg.pixels_per_cell.2 * (cell_x + w) + cfg.grid_offset.2) / cfg.anchor_box.2
    ys := height
    xs := width }

/-- Embedding of `GridObjectLayer._build_box` including its two assertions
`assert self.max_yx > self.min_yx` and `assert self.max_hw > self.min_hw`,
which raise `AssertionError` when violated (this is the first point where an
invalid box-range configuration is rejected). -/
noncomputable def build_box (cfg : GridConfig) (noisy : ℝ)
    (p : BoxParams) (e : BoxSample) (h w : ℝ) : Except String BoxBuilt :=
  if cfg.max_yx ≤ cfg.min_yx then .error "AssertionError: max_yx > min_yx"
  else if cfg.max_hw ≤ cfg.min_hw then .error "AssertionError: max_hw > min_hw"
  else .ok (build_box_vals cfg noisy p e h w)

/-- Outputs of `GridObjectLayer._build_obj`. -/
structure ObjBuilt where
  obj_log_odds : ℝ
  obj_prob : ℝ
  obj_pre_sigmoid : ℝ
  obj : ℝ

/-- Embedding of `GridObjectLayer._build_obj` (lines 345-361).  `objLogitIn`
is the obj network's scalar output, `noise` the logistic noise consumed by the
Concrete relaxation, and `noisy` models the blend coefficient `self._noisy`. -/
noncomputable def build_obj (cfg : GridConfig) (noisy objLogitIn noise : ℝ) : ObjBuilt :=
  let obj_logit := training_wheels_blend cfg.training_wheels objLogitIn
  let obj_log_odds := clip_by_value (obj_logit / cfg.obj_temp) (-10) 10
  let obj_pre_sigmoid :=
    noisy * concrete_binary_pre_sigmoid_sample obj_log_odds cfg.obj_concrete_temp noise
      + (1 - noisy) * obj_log_odds
  { obj_log_odds := obj_log_odds
    obj_prob := sigmoid obj_log_odds
    obj_pre_sigmoid := obj_pre_sigmoid
    obj := sigmoid obj_pre_sigmoid }

/-- Outputs of the depth (`z`) stage of `GridObjectLayer._call` (lines 515-530). -/
structure ZBuilt where
  z_logit_mean : ℝ
  z_logit_std : ℝ
  z_logit : ℝ
  z : ℝ

/-- Embedding of the depth stage of `GridObjectLayer._call`: the z network's
`(mean, log_std)` output passes through `std_nonlinearity`, the training-wheels
blend, a reparameterized normal sample, and `z_nonlinearity`. -/
noncomputable def build_z (cfg : GridConfig) (noisy z_mean z_log_std eps : ℝ) : ZBuilt :=
  let m := training_wheels_blend cfg.training_wheels z_mean
  let s := training_wheels_blend cfg.training_wheels (std_nonlinearity noisy z_log_std)
  let z_logit := m + s * eps
  { z_logit_mean := m
    z_logit_std := s
    z_logit := z_logit
    z := z_nonlinearity z_logit }

/-- Embedding of `GridObjectLayer._get_sequential_context` (lines 363-391).
`program` models the `(H, W, B)` object array of already-built program
entries (each entry a tensor, abstracted to a value of type `α`); `edge`
models `edge_element`.  The result is the list of entries concatenated by
`tf.concat(context, axis=1)`; an empty list models the zero-width tensor
returned when there is no context.  The surrounding loop visits
`idx < (2 * n_lookback + 1)^2 / 2` window positions with
`i = idx / grid_size + h - n_lookback` and `j = idx % grid_size + w - n_lookback`,
appending `B` entries each (the edge element when `(i, j)` is out of bounds),
then the current cell contributes its `B - 1` previous slots (the edge element
when the slot index `k + (-(B - 1) + b)` is negative). -/
def get_sequential_context {α : Type} (program : ℕ → ℕ → ℕ → α)
    (H W B L : ℕ) (h w b : ℕ) (edge : α) : List α :=
  ((List.range ((2 * L + 1) ^ 2 / 2)).map (fun idx =>
    (List.range B).map (fun k =>
      if ((idx / (2 * L + 1) : ℕ) : ℤ) + h - L < 0
          ∨ ((idx % (2 * L + 1) : ℕ) : ℤ) + w - L < 0
          ∨ (H : ℤ) ≤ ((idx / (2 * L + 1) : ℕ) : ℤ) + h - L
          ∨ (W : ℤ) ≤ ((idx % (2 * L + 1) : ℕ) : ℤ) + w - L
      then edge
      else program (((idx / (2 * L + 1) : ℕ) : ℤ) + h - L).toNat
        (((idx % (2 * L + 1) : ℕ) : ℤ) + w - L).toNat k))).flatten
  ++ (List.range (B - 1)).map (fun (k : ℕ) =>
      if (k : ℤ) + (-((B : ℤ) - 1) + b) < 0 then edge
      else program h w ((k : ℤ) + (-((B : ℤ) - 1) + b)).toNat)

/-- Presence value of the cell-slot `(h, w, b)` as `GridObjectLayer._call`
builds it: the obj network's output (a free function of the cell-slot index,
since the networks are external) passed through `_build_obj`. -/
noncomputable def layer_obj_value (cfg : GridConfig) (noisy : ℝ)
    (objNetOut objNoise : ℕ → ℕ → ℕ → ℝ) (h w b : ℕ) : ℝ :=
  (build_obj cfg noisy (objNetOut h w b) (objNoise h w b)).obj

/-- Embedding of `objects.pred_n_objects_hard = tf.reduce_sum(tf.round(objects.obj), axis=(1, 2))`
(line 560) for one batch element: the rounded presence values summed over all
cells `(h, w)` and slots `b`. -/
noncomputable def pred_n_objects_hard (cfg : GridConfig) (noisy : ℝ) (H W : ℕ)
    (objNetOut objNoise : ℕ → ℕ → ℕ → ℝ) : ℝ :=
  ∑ h ∈ Finset.range H, ∑ w ∈ Finset.range W, ∑ b ∈ Finset.range cfg.n_objects_per_cell,
    tf_round (layer_obj_value cfg noisy objNetOut objNoise h w b)

/-- Latent bundle produced by the convolutional grid layer, one entry per grid
cell (slot count is necessarily 1 there). -/
structure ConvObjects where
  box : ℕ → ℕ → BoxBuilt
  obj : ℕ → ℕ → ObjBuilt
  hard_count : ℝ

/-- Embedding of `ConvGridObjectLayer._call` (lines 577-714) at the level of
detail the claims need: after the sub-networks are set up, the call raises
`Exception("NotImplemented")` when `self.B != 1` — before any latent is built —
and otherwise builds the box and presence latents for every grid cell (the
box-range assertions of `_build_box` fire inside that build) and the derived
hard object count. -/
noncomputable def conv_grid_object_layer_call (cfg : GridConfig) (noisy : ℝ) (H W : ℕ)
    (boxParams : ℕ → ℕ → BoxParams) (boxNoise : ℕ → ℕ → BoxSample)
    (objNetOut objNoise : ℕ → ℕ → ℝ) : Except String ConvObjects :=
  if cfg.n_objects_per_cell ≠ 1 then .error "NotImplemented"
  else if cfg.max_yx ≤ cfg.min_yx then .error "AssertionError: max_yx > min_yx"
  else if cfg.max_hw ≤ cfg.min_hw then .error "AssertionError: max_hw > min_hw"
  else .ok
    { box := fun h w => build_box_vals cfg noisy (boxParams h w) (boxNoise h w) h w
      obj := fun h w => build_obj cfg noisy (objNetOut h w) (objNoise h w)
      hard_count := ∑ h ∈ Finset.range H, ∑ w ∈ Finset.range W,
        tf_round ((build_obj cfg noisy (objNetOut h w) (objNoise h w)).obj) }

/-! ## Helper lemmas -/

lemma sigmoid_pos (x : ℝ) : 0 < sigmoid x := by
  unfold sigmoid
  positivity

lemma sigmoid_lt_one (x : ℝ) : sigmoid x < 1 := by
  unfold sigmoid
  rw [div_lt_one (by positivity)]
  linarith [Real.exp_pos (-x)]

lemma sigmoid_mem_Icc (x : ℝ) : sigmoid x ∈ Set.Icc (0 : ℝ) 1 :=
  ⟨le_of_lt (sigmoid_pos x), le_of_lt (sigmoid_lt_one x)⟩

lemma sigmoid_strictMono : StrictMono sigmoid := by
  intro a b hab
  unfold sigmoid
  have h1 : Real.exp (-b) < Real.exp (-a) := Real.exp_lt_exp.mpr (by linarith)
  have h2 : (0 : ℝ) < 1 + Real.exp (-b) := by positivity
  exact one_div_lt_one_div_of_lt h2 (by linarith)

lemma clip_by_value_mem_Icc (x lo hi : ℝ) (h : lo ≤ hi) :
    clip_by_value x lo hi ∈ Set.Icc lo hi := by
  unfold clip_by_value
  exact ⟨le_min (le_max_right x lo) h, min_le_right _ _⟩

lemma training_wheels_blend_eq (w x : ℝ) : training_wheels_blend w x = x := by
  unfold training_wheels_blend stop_gradient
  ring

lemma rescale_mem_Icc {lo hi s : ℝ} (hlt : lo < hi) (hs : s ∈ Set.Icc (0 : ℝ) 1) :
    (hi - lo) * s + lo ∈ Set.Icc lo hi := by
  obtain ⟨h0, h1⟩ := hs
  constructor
  · nlinarith
  · nlinarith

lemma tf_round_eq_zero_or_one {x : ℝ} (h0 : 0 < x) (h1 : x < 1) :
    tf_round x = 0 ∨ tf_round x = 1 := by
  have hfl : ⌊x⌋ = 0 := Int.floor_eq_zero_iff.mpr ⟨le_of_lt h0, h1⟩
  have hfr : Int.fract x = x := Int.fract_eq_self.mpr ⟨le_of_lt h0, h1⟩
  unfold tf_round
  by_cases hf : Int.fract x = 1 / 2
  · rw [if_pos hf, hfl]
    left
    simp
  · rw [if_neg hf, round_eq]
    rcases lt_or_le x (1 / 2) with hlt | hge
    · left
      have hz : ⌊x + 1 / 2⌋ = 0 := Int.floor_eq_zero_iff.mpr ⟨by linarith, by linarith⟩
      rw [hz]
      norm_num
    · right
      have hne : x ≠ 1 / 2 := fun he => hf (by rw [hfr, he])
      have hgt : 1 / 2 < x := lt_of_le_of_ne hge (Ne.symm hne)
      have ho : ⌊x + 1 / 2⌋ = 1 := by
        rw [Int.floor_eq_iff]
        constructor
        · push_cast
          linarith
        · push_cast
          linarith
      rw [ho]
      norm_num

lemma build_obj_obj_pos (cfg : GridConfig) (noisy lg ns : ℝ) :
    0 < (build_obj cfg noisy lg ns).obj := by
  unfold build_obj
  exact sigmoid_pos _

lemma build_obj_obj_lt_one (cfg : GridConfig) (noisy lg ns : ℝ) :
    (build_obj cfg noisy lg ns).obj < 1 := by
  unfold build_obj
  exact sigmoid_lt_one _

lemma sum_map_const_range (n c : ℕ) : ((List.range n).map (fun _ => c)).sum = n * c := by
  induction n with
  | zero => simp
  | succ m ih => rw [List.range_succ, List.map_append, List.sum_append]; simp [ih, Nat.succ_mul]

lemma map_const_eq_replicate {α β : Type} (l : List α) (c : β) :
    l.map (fun _ => c) = List.replicate l.length c := by
  induction l with
  | nil => simp
  | cons a t ih => simp [ih, List.replicate_succ]

lemma flatten_replicate_replicate {α : Type} (n B : ℕ) (e : α) :
    (List.replicate n (List.replicate B e)).flatten = List.replicate (n * B) e := by
  induction n with
  | zero => simp
  | succ m ih =>
      rw [List.replicate_succ, List.flatten_cons, ih, Nat.succ_mul, Nat.add_comm,
        List.replicate_add]

lemma origin_window_oob (L idx : ℕ) (h : idx < (2 * L + 1) ^ 2 / 2) :
    idx / (2 * L + 1) < L ∨ idx % (2 * L + 1) < L := by
  by_contra hcon
  push_neg at hcon
  obtain ⟨hq, hr⟩ := hcon
  have hsq : (2 * L + 1) ^ 2 / 2 = (2 * L + 1) * L + L := by
    have h1 : (2 * L + 1) ^ 2 = 2 * ((2 * L + 1) * L + L) + 1 := by ring
    omega
  have hdm := Nat.div_add_mod idx (2 * L + 1)
  have hmul : (2 * L + 1) * L ≤ (2 * L + 1) * (idx / (2 * L + 1)) :=
    Nat.mul_le_mul_left _ hq
  omega

lemma length_flatten_of_const {α β : Type} (l : List α) (f : α → List β) (B : ℕ)
    (h : ∀ a ∈ l, (f a).length = B) : (l.map f).flatten.length = l.length * B := by
  rw [List.length_flatten, List.map_map]
  have hmap : l.map (List.length ∘ f) = l.map (fun _ => B) :=
    List.map_congr_left (fun a ha => h a ha)
  rw [hmap, map_const_eq_replicate, List.sum_replicate, smul_eq_mul]

lemma get_sequential_context_length {α : Type} (program : ℕ → ℕ → ℕ → α)
    (H W B L h w b : ℕ) (edge : α) :
    (get_sequential_context program H W B L h w b edge).length
      = B * ((2 * L + 1) ^ 2 / 2) + (B - 1) := by
  unfold get_sequential_context
  rw [List.length_append, length_flatten_of_const _ _ B (fun idx _ => by simp),
    List.length_range, List.length_map, List.length_range, Nat.mul_comm]

/-! ## Claim theorems -/

/-- C3: for every cell-slot index `(h, w, b)` and fixed `(H, W, B, L)`, the
sequential context assembled by `_get_sequential_context` is the concatenation
of exactly `B * ((2 * L + 1)^2 / 2) + (B - 1)` entries, so its width is the
same for every position `(h, w, b)`. -/
theorem C3_context_width {α : Type} (program : ℕ → ℕ → ℕ → α)
    (H W B L h w b : ℕ) (edge : α) :
    (get_sequential_context program H W B L h w b edge).length
      = B * ((2 * L + 1) ^ 2 / 2) + (B - 1) :=
  get_sequential_context_length program H W B L h w b edge

/-- C7: in the sequential context for the first cell and slot
`(h, w, b) = (0, 0, 0)`, every surrounding-neighborhood entry and every
earlier-slot entry refers to an out-of-bounds or not-yet-available position,
so the whole context is the edge element replicated. -/
theorem C7_origin_context_all_edge {α : Type} (program : ℕ → ℕ → ℕ → α)
    (H W B L : ℕ) (edge : α) :
    get_sequential_context program H W B L 0 0 0 edge
      = List.replicate (B * ((2 * L + 1) ^ 2 / 2) + (B - 1)) edge := by
  rw [List.eq_replicate_iff]
  refine ⟨get_sequential_context_length program H W B L 0 0 0 edge, ?_⟩
  intro x hx
  unfold get_sequential_context at hx
  rw [List.mem_append] at hx
  rcases hx with hx | hx
  · rw [List.mem_flatten] at hx
    obtain ⟨l, hl, hxl⟩ := hx
    simp only [List.mem_map, List.mem_range] at hl
    obtain ⟨idx, hidx, rfl⟩ := hl
    simp only [List.mem_map, List.mem_range] at hxl
    obtain ⟨k, hk, hxk⟩ := hxl
    rw [← hxk, if_pos]
    rcases origin_window_oob L idx hidx with hq | hr
    · left
      omega
    · right
      left
      omega
  · simp only [List.mem_map, List.mem_range] at hx
    obtain ⟨k, hk, hxk⟩ := hx
    rw [← hxk, if_pos]
    omega

/-- C4: for every finite input logit (and any blend coefficient, temperatures
and relaxation noise), the presence builder's final presence score `obj` lies
in `[0, 1]`, and `obj_log_odds` lies in `[-10, 10]` regardless of the input's
magnitude. -/
theorem C4_presence_bounds (cfg : GridConfig) (noisy lg ns : ℝ) :
    (build_obj cfg noisy lg ns).obj ∈ Set.Icc (0 : ℝ) 1
      ∧ (build_obj cfg noisy lg ns).obj_log_odds ∈ Set.Icc (-10 : ℝ) 10 := by
  constructor
  · exact ⟨le_of_lt (build_obj_obj_pos cfg noisy lg ns),
      le_of_lt (build_obj_obj_lt_one cfg noisy lg ns)⟩
  · unfold build_obj
    exact clip_by_value_mem_Icc _ _ _ (by norm_num)

/-- C6: the forward coordinate transform computes
`yt = (pixels_per_cell[0] * (cell_y + h) + grid_offset[0]) / anchor_box[0]`,
symmetrically `xt`, with `ys = height` and `xs = width`, for every cell
`(h, w)`. -/
theorem C6_coordinate_transform (cfg : GridConfig) (noisy : ℝ) (p : BoxParams)
    (e : BoxSample) (h w : ℝ) :
    (build_box_vals cfg noisy p e h w).yt
        = (cfg.pixels_per_cell.1 * ((build_box_vals cfg noisy p e h w).cell_y + h)
            + cfg.grid_offset.1) / cfg.anchor_box.1
      ∧ (build_box_vals cfg noisy p e h w).xt
        = (cfg.pixels_per_cell.2 * ((build_box_vals cfg noisy p e h w).cell_x + w)
            + cfg.grid_offset.2) / cfg.anchor_box.2
      ∧ (build_box_vals cfg noisy p e h w).ys = (build_box_vals cfg noisy p e h w).height
      ∧ (build_box_vals cfg noisy p e h w).xs = (build_box_vals cfg noisy p e h w).width :=
  ⟨rfl, rfl, rfl, rfl⟩

/-- C9: invoking the convolutional grid object layer with a slot count other
than 1 returns the `NotImplemented` exception immediately, before any latent
is built. -/
theorem C9_conv_rejects_multislot (cfg : GridConfig) (noisy : ℝ) (H W : ℕ)
    (bp : ℕ → ℕ → BoxParams) (bn : ℕ → ℕ → BoxSample) (f g : ℕ → ℕ → ℝ)
    (hB : cfg.n_objects_per_cell ≠ 1) :
    conv_grid_object_layer_call cfg noisy H W bp bn f g = .error "NotImplemented" := by
  unfold conv_grid_object_layer_call
  rw [if_pos hB]

/-- Witness for C9 at the concrete configuration with `n_objects_per_cell = 2`. -/
theorem C9_conv_rejects_multislot_witness :
    (2 ≠ 1)
      ∧ conv_grid_object_layer_call ⟨0, 1, 0, 1, (1, 1), (0, 0), (1, 1), 0, 1, 1, 2, 1⟩ 1 2 2
          (fun _ _ => ⟨0, 0, 0, 0, 0, 0, 0, 0⟩) (fun _ _ => ⟨0, 0, 0, 0⟩)
          (fun _ _ => 0) (fun _ _ => 0) = .error "NotImplemented" :=
  ⟨by decide, C9_conv_rejects_multislot _ _ _ _ _ _ _ _ (by decide)⟩

/-- C10: the training-wheels blend `w * stop_gradient(x) + (1 - w) * x` leaves
the forward value unchanged, so the sampled box, depth and presence values are
numerically independent of the `training_wheels` setting. -/
theorem C10_training_wheels_invariance (cfg : GridConfig) (t₁ t₂ noisy : ℝ)
    (p : BoxParams) (e : BoxSample) (h w zm zs zeps lg ns : ℝ) :
    (∀ u x : ℝ, training_wheels_blend u x = x)
      ∧ build_box_vals { cfg with training_wheels := t₁ } noisy p e h w
          = build_box_vals { cfg with training_wheels := t₂ } noisy p e h w
      ∧ build_z { cfg with training_wheels := t₁ } noisy zm zs zeps
          = build_z { cfg with training_wheels := t₂ } noisy zm zs zeps
      ∧ build_obj { cfg with training_wheels := t₁ } noisy lg ns
          = build_obj { cfg with training_wheels := t₂ } noisy lg ns := by
  refine ⟨training_wheels_blend_eq, ?_, ?_, ?_⟩ <;>
    simp only [build_box_vals, build_z, build_obj, training_wheels_blend_eq]

/-- C1 (counterexample): the presence builder applies the final sigmoid to the
unclipped pre-sigmoid value.  At `training_wheels = 0`, `obj_temp = 1`,
`obj_concrete_temp = 1`, blend coefficient `noisy = 1`, input logit `20` and
logistic noise `5`, the value entering the final sigmoid is
`obj_pre_sigmoid = (10 + 5) / 1 = 15 ∉ [-10, 10]`, and the produced presence
differs from what a sigmoid of the clipped value would give — refuting the
claim that every value the presence builder passes through a sigmoid is
clipped to `[-10, 10]` first. -/
theorem C1_counterexample :
    (build_obj ⟨0, 1, 0, 1, (1, 1), (0, 0), (1, 1), 0, 1, 1, 1, 1⟩ 1 20 5).obj
      ≠ sigmoid (clip_by_value
          (build_obj ⟨0, 1, 0, 1, (1, 1), (0, 0), (1, 1), 0, 1, 1, 1, 1⟩ 1 20 5).obj_pre_sigmoid
          (-10) 10) := by
  have harg : (build_obj ⟨0, 1, 0, 1, (1, 1), (0, 0), (1, 1), 0, 1, 1, 1, 1⟩ 1 20 5).obj_pre_sigmoid
      = 15 := by
    norm_num [build_obj, concrete_binary_pre_sigmoid_sample, training_wheels_blend,
      stop_gradient, clip_by_value, min_def, max_def]
  have hobj : (build_obj ⟨0, 1, 0, 1, (1, 1), (0, 0), (1, 1), 0, 1, 1, 1, 1⟩ 1 20 5).obj
      = sigmoid 15 := by
    rw [show (build_obj ⟨0, 1, 0, 1, (1, 1), (0, 0), (1, 1), 0, 1, 1, 1, 1⟩ 1 20 5).obj
        = sigmoid ((build_obj ⟨0, 1, 0, 1, (1, 1), (0, 0), (1, 1), 0, 1, 1, 1, 1⟩ 1 20 5).obj_pre_sigmoid)
      from rfl, harg]
  rw [hobj, harg]
  have h10 : clip_by_value (15 : ℝ) (-10) 10 = 10 := by
    norm_num [clip_by_value, min_def, max_def]
  rw [h10]
  intro he
  have h15 := sigmoid_strictMono.injective he
  norm_num at h15

/-- C1 (amended): in the box, attribute, depth and std nonlinearities every
logit entering a sigmoid is first clipped to `[-10, 10]`, and the presence
builder's log-odds entering the `obj_prob` sigmoid is clipped to `[-10, 10]`;
but the final presence sigmoid receives the unclipped pre-sigmoid blend of the
Concrete relaxation sample and the log-odds. -/
theorem C1_amended_clipping (cfg : GridConfig) (noisy : ℝ) (p : BoxParams) (e : BoxSample)
    (h w zm zs zeps lg ns : ℝ) :
    (build_box_vals cfg noisy p e h w).cell_y
        = (cfg.max_yx - cfg.min_yx)
            * sigmoid (clip_by_value (build_box_vals cfg noisy p e h w).cell_y_logit (-10) 10)
          + cfg.min_yx
      ∧ (build_z cfg noisy zm zs zeps).z
        = sigmoid (clip_by_value (build_z cfg noisy zm zs zeps).z_logit (-10) 10)
      ∧ (∀ x : ℝ, std_nonlinearity noisy x
          = noisy * 2 * sigmoid (clip_by_value x (-10) 10) + (1 - noisy) * 0)
      ∧ (build_obj cfg noisy lg ns).obj_log_odds ∈ Set.Icc (-10 : ℝ) 10
      ∧ (build_obj cfg noisy lg ns).obj_prob = sigmoid ((build_obj cfg noisy lg ns).obj_log_odds)
      ∧ (build_obj cfg noisy lg ns).obj = sigmoid ((build_obj cfg noisy lg ns).obj_pre_sigmoid) := by
  refine ⟨rfl, rfl, fun x => rfl, ?_, rfl, rfl⟩
  unfold build_obj
  exact clip_by_value_mem_Icc _ _ _ (by norm_num)

/-- C2 (counterexample): constructing a `GridObjectLayer` with
`min_yx = 1 > 0 = max_yx` and `min_hw = 1 > 0 = max_hw` succeeds — the
constructor performs no box-range validation, so the claim that construction
fails immediately is false. -/
theorem C2_counterexample :
    grid_object_layer_init ⟨1, 0, 1, 0, (1, 1), (0, 0), (1, 1), 0, 1, 1, 1, 1⟩
      = .ok ⟨⟨1, 0, 1, 0, (1, 1), (0, 0), (1, 1), 0, 1, 1, 1, 1⟩, 1⟩ := rfl

/-- C2 (amended): a box-range configuration violating `min_yx < max_yx` or
`min_hw < max_hw` is accepted by the constructor and instead rejected by the
assertions in `_build_box` when the box builder first runs. -/
theorem C2_amended_rejection (cfg : GridConfig) (noisy : ℝ) (p : BoxParams) (e : BoxSample)
    (h w : ℝ) (hbad : cfg.max_yx ≤ cfg.min_yx ∨ cfg.max_hw ≤ cfg.min_hw) :
    (∃ st, grid_object_layer_init cfg = .ok st)
      ∧ ∃ msg, build_box cfg noisy p e h w = .error msg := by
  refine ⟨⟨_, rfl⟩, ?_⟩
  unfold build_box
  by_cases h1 : cfg.max_yx ≤ cfg.min_yx
  · exact ⟨_, if_pos h1⟩
  · rw [if_neg h1]
    rcases hbad with hb | hb
    · exact absurd hb h1
    · exact ⟨_, if_pos hb⟩

/-- Witness for C2 (amended) at the concrete violating configuration
`min_yx = 1, max_yx = 0, min_hw = 1, max_hw = 0`. -/
theorem C2_amended_rejection_witness :
    ((0 : ℝ) ≤ 1 ∨ (0 : ℝ) ≤ 1)
      ∧ ((∃ st, grid_object_layer_init ⟨1, 0, 1, 0, (1, 1), (0, 0), (1, 1), 0, 1, 1, 1, 1⟩ = .ok st)
        ∧ ∃ msg, build_box ⟨1, 0, 1, 0, (1, 1), (0, 0), (1, 1), 0, 1, 1, 1, 1⟩ 1
            ⟨0, 0, 0, 0, 0, 0, 0, 0⟩ ⟨0, 0, 0, 0⟩ 0 0 = .error msg) :=
  ⟨Or.inl (by norm_num),
    C2_amended_rejection _ _ _ _ _ _ (by left; show (0 : ℝ) ≤ 1; norm_num)⟩

/-- C5: for every sampled logit, the box builder's outputs satisfy
`cell_y, cell_x ∈ [min_yx, max_yx]` and `height, width ∈ [min_hw, max_hw]`,
each obtained by applying a sigmoid to the clipped logit and then an affine
rescale into the configured range; and the asserting `_build_box` returns
exactly these values. -/
theorem C5_box_ranges (cfg : GridConfig) (noisy : ℝ) (p : BoxParams) (e : BoxSample)
    (h w : ℝ) (hyx : cfg.min_yx < cfg.max_yx) (hhw : cfg.min_hw < cfg.max_hw) :
    (build_box_vals cfg noisy p e h w).cell_y ∈ Set.Icc cfg.min_yx cfg.max_yx
      ∧ (build_box_vals cfg noisy p e h w).cell_x ∈ Set.Icc cfg.min_yx cfg.max_yx
      ∧ (build_box_vals cfg noisy p e h w).height ∈ Set.Icc cfg.min_hw cfg.max_hw
      ∧ (build_box_vals cfg noisy p e h w).width ∈ Set.Icc cfg.min_hw cfg.max_hw
      ∧ (build_box_vals cfg noisy p e h w).cell_y
          = (cfg.max_yx - cfg.min_yx)
              * sigmoid (clip_by_value (build_box_vals cfg noisy p e h w).cell_y_logit (-10) 10)
            + cfg.min_yx
      ∧ (build_box_vals cfg noisy p e h w).cell_x
          = (cfg.max_yx - cfg.min_yx)
              * sigmoid (clip_by_value (build_box_vals cfg noisy p e h w).cell_x_logit (-10) 10)
            + cfg.min_yx
      ∧ (build_box_vals cfg noisy p e h w).height
          = (cfg.max_hw - cfg.min_hw)
              * sigmoid (clip_by_value (build_box_vals cfg noisy p e h w).height_logit (-10) 10)
            + cfg.min_hw
      ∧ (build_box_vals cfg noisy p e h w).width
          = (cfg.max_hw - cfg.min_hw)
              * sigmoid (clip_by_value (build_box_vals cfg noisy p e h w).width_logit (-10) 10)
            + cfg.min_hw
      ∧ build_box cfg noisy p e h w = .ok (build_box_vals cfg noisy p e h w) := by
  refine ⟨rescale_mem_Icc hyx (sigmoid_mem_Icc _), rescale_mem_Icc hyx (sigmoid_mem_Icc _),
    rescale_mem_Icc hhw (sigmoid_mem_Icc _), rescale_mem_Icc hhw (sigmoid_mem_Icc _),
    rfl, rfl, rfl, rfl, ?_⟩
  unfold build_box
  rw [if_neg (not_le.mpr hyx), if_neg (not_le.mpr hhw)]

/-- Witness for C5 at a concrete configuration with ranges `[0, 1]`, zero
network outputs and zero noise. -/
theorem C5_box_ranges_witness :
    ((0 : ℝ) < 1 ∧ (0 : ℝ) < 1)
      ∧ ((build_box_vals ⟨0, 1, 0, 1, (1, 1), (0, 0), (1, 1), 0, 1, 1, 1, 1⟩ 1
            ⟨0, 0, 0, 0, 0, 0, 0, 0⟩ ⟨0, 0, 0, 0⟩ 0 0).cell_y ∈ Set.Icc (0 : ℝ) 1
        ∧ (build_box_vals ⟨0, 1, 0, 1, (1, 1), (0, 0), (1, 1), 0, 1, 1, 1, 1⟩ 1
            ⟨0, 0, 0, 0, 0, 0, 0, 0⟩ ⟨0, 0, 0, 0⟩ 0 0).cell_x ∈ Set.Icc (0 : ℝ) 1) := by
  refine ⟨⟨by norm_num, by norm_num⟩, ?_⟩
  have hmain := C5_box_ranges ⟨0, 1, 0, 1, (1, 1), (0, 0), (1, 1), 0, 1, 1, 1, 1⟩ 1
    ⟨0, 0, 0, 0, 0, 0, 0, 0⟩ ⟨0, 0, 0, 0⟩ 0 0
    (by show (0 : ℝ) < 1; norm_num) (by show (0 : ℝ) < 1; norm_num)
  exact ⟨hmain.1, hmain.2.1⟩

/-- C8: the hard predicted object count equals the sum of `tf.round(obj)` over
all cells and slots, each rounded presence is 0 or 1, and the count is at most
`H * W * B` for every input. -/
theorem C8_hard_count (cfg : GridConfig) (noisy : ℝ) (H W : ℕ)
    (f g : ℕ → ℕ → ℕ → ℝ) :
    pred_n_objects_hard cfg noisy H W f g
        = (∑ h ∈ Finset.range H, ∑ w ∈ Finset.range W,
            ∑ b ∈ Finset.range cfg.n_objects_per_cell,
              tf_round ((build_obj cfg noisy (f h w b) (g h w b)).obj))
      ∧ (∀ h w b : ℕ, tf_round ((build_obj cfg noisy (f h w b) (g h w b)).obj) = 0
          ∨ tf_round ((build_obj cfg noisy (f h w b) (g h w b)).obj) = 1)
      ∧ pred_n_objects_hard cfg noisy H W f g
          ≤ ((H * W * cfg.n_objects_per_cell : ℕ) : ℝ) := by
  have hzo : ∀ h w b : ℕ, tf_round ((build_obj cfg noisy (f h w b) (g h w b)).obj) = 0
      ∨ tf_round ((build_obj cfg noisy (f h w b) (g h w b)).obj) = 1 :=
    fun h w b => tf_round_eq_zero_or_one (build_obj_obj_pos _ _ _ _) (build_obj_obj_lt_one _ _ _ _)
  have hle1 : ∀ h w b : ℕ, tf_round ((build_obj cfg noisy (f h w b) (g h w b)).obj) ≤ 1 := by
    intro h w b
    rcases hzo h w b with h0 | h1
    · rw [h0]; norm_num
    · exact le_of_eq h1
  refine ⟨rfl, hzo, ?_⟩
  unfold pred_n_objects_hard layer_obj_value
  calc ∑ h ∈ Finset.range H, ∑ w ∈ Finset.range W, ∑ b ∈ Finset.range cfg.n_objects_per_cell,
        tf_round ((build_obj cfg noisy (f h w b) (g h w b)).obj)
      ≤ ∑ _h ∈ Finset.range H, ∑ _w ∈ Finset.range W,
          ∑ _b ∈ Finset.range cfg.n_objects_per_cell, (1 : ℝ) := by
        refine Finset.sum_le_sum fun h _ => Finset.sum_le_sum fun w _ =>
          Finset.sum_le_sum fun b _ => hle1 h w b
    _ = ((H * W * cfg.n_objects_per_cell : ℕ) : ℝ) := by
        simp [Finset.sum_const, Finset.card_range]
        ring

end AutoYolo
